import Mathlib

/-!
Verification of the Chan-theory stock-analysis core in `src/app.py`
(`handle_inclusion`, fractal detection, `find_strokes`, `calculate_zhongshu`,
`check_divergence`, `check_sell_signals`, and the signal-fusion portion of
`analyze_stock`).  Prices are modelled as rationals; pandas DataFrames of
bars become `List Bar`.  All definitions are translated from the Python
source; the one exception is `strokeStepSpec`/`find_strokes_spec`, which
follows the specification's words for comparison with the code.
-/

/- Batteries marks rational arithmetic `@[irreducible]`; restore
reducibility so that concrete witnesses evaluate by `decide`. -/
unseal Rat.add Rat.sub Rat.mul Rat.inv Rat.ofScientific

/-- A daily price bar (the columns of the DataFrame that the core reads). -/
structure Bar where
  open_ : ℚ
  high : ℚ
  low : ℚ
  close : ℚ
  deriving Repr, DecidableEq, Inhabited

/-- Inclusion test between the current merged candle and the next candle,
from `handle_inclusion`: `is_included or is_including`. -/
def included (cur nxt : Bar) : Bool :=
  (decide (nxt.high ≥ cur.high) && decide (nxt.low ≤ cur.low)) ||
  (decide (nxt.high ≤ cur.high) && decide (nxt.low ≥ cur.low))

/-- Merging one candle into the current one: `high = max`, `low = min`,
`open`/`close` taken from the later candle. -/
def mergeBars (cur nxt : Bar) : Bar :=
  { open_ := nxt.open_
    high := max cur.high nxt.high
    low := min cur.low nxt.low
    close := nxt.close }

/-- The inner `while` loop of `handle_inclusion`: keep absorbing following
candles into `cur` while the inclusion relation holds, then emit `cur` and
restart at the first non-absorbed candle. -/
def handle_inclusion_go : Bar → List Bar → List Bar
  | cur, [] => [cur]
  | cur, b :: bs =>
    if included cur b then handle_inclusion_go (mergeBars cur b) bs
    else cur :: handle_inclusion_go b bs

/-- K-line inclusion processing (`handle_inclusion` in the source). -/
def handle_inclusion : List Bar → List Bar
  | [] => []
  | b :: bs => handle_inclusion_go b bs

/-- Top-fractal test (`is_top_fractal`): the middle bar of the triple at
positions `idx-2, idx-1, idx` dominates both neighbours strictly on both the
high and the low. -/
def is_top_fractal (df : List Bar) (idx : ℕ) : Bool :=
  if idx < 2 ∨ df.length ≤ idx then false
  else
    let p2 := df.getD (idx - 1) default
    let p1 := df.getD (idx - 2) default
    let p3 := df.getD idx default
    decide (p2.high > p1.high) && decide (p2.high > p3.high) &&
      decide (p2.low > p1.low) && decide (p2.low > p3.low)

/-- Bottom-fractal test (`is_bottom_fractal`), symmetric to the top test. -/
def is_bottom_fractal (df : List Bar) (idx : ℕ) : Bool :=
  if idx < 2 ∨ df.length ≤ idx then false
  else
    let p2 := df.getD (idx - 1) default
    let p1 := df.getD (idx - 2) default
    let p3 := df.getD idx default
    decide (p2.low < p1.low) && decide (p2.low < p3.low) &&
      decide (p2.high < p1.high) && decide (p2.high < p3.high)

inductive FType where
  | top
  | bottom
  deriving Repr, DecidableEq, Inhabited

/-- A fractal candidate: position in the merged sequence, kind, extreme price. -/
structure Fractal where
  idx : ℕ
  type : FType
  price : ℚ
  deriving Repr, DecidableEq, Inhabited

/-- The fractal-collection loop of `find_strokes`:
`for i in range(2, len(df))`, testing top first, else bottom, recording
`{idx, type, price}` at position `i-1`. -/
def fractalsOf (df : List Bar) : List Fractal :=
  (List.range df.length).filterMap fun i =>
    if 2 ≤ i then
      if is_top_fractal df i then
        some ⟨i - 1, FType.top, (df.getD (i - 1) default).high⟩
      else if is_bottom_fractal df i then
        some ⟨i - 1, FType.bottom, (df.getD (i - 1) default).low⟩
      else none
    else none

inductive StrokeType where
  | up
  | down
  deriving Repr, DecidableEq, Inhabited

/-- A stroke as the source records it: `{'type', 'start', 'end'}`.
The `end` key is spelled `end_` because `end` is a Lean keyword. -/
structure Stroke where
  type : StrokeType
  start : ℚ
  end_ : ℚ
  deriving Repr, DecidableEq, Inhabited

/-- One iteration of the stroke-building loop of `find_strokes`, acting on
the state (pending fractal `current_stroke_start`, accumulated strokes). -/
def strokeStep (st : Option Fractal × List Stroke) (f : Fractal) :
    Option Fractal × List Stroke :=
  match st.1 with
  | none => (some f, st.2)
  | some p =>
    if f.type ≠ p.type then
      if 2 ≤ f.idx - p.idx then
        if p.type = FType.bottom ∧ f.type = FType.top ∧ f.price > p.price then
          (some f, st.2 ++ [⟨StrokeType.up, p.price, f.price⟩])
        else if p.type = FType.top ∧ f.type = FType.bottom ∧ f.price < p.price then
          (some f, st.2 ++ [⟨StrokeType.down, p.price, f.price⟩])
        else (some f, st.2)
      else (some f, st.2)
    else
      if (f.type = FType.top ∧ f.price > p.price) ∨
          (f.type = FType.bottom ∧ f.price < p.price) then
        (some f, st.2)
      else st

/-- Stroke construction (`find_strokes`): returns the strokes and the raw
top/bottom candidate counts `ding_count`, `di_count`. -/
def find_strokes (df : List Bar) : List Stroke × ℕ × ℕ :=
  if df.length < 5 then ([], 0, 0)
  else
    let fractals := fractalsOf df
    let ding_count := (fractals.filter fun f => f.type == FType.top).length
    let di_count := (fractals.filter fun f => f.type == FType.bottom).length
    if fractals.length < 2 then ([], ding_count, di_count)
    else
      ((fractals.foldl strokeStep (none, [])).2, ding_count, di_count)

/-- Modelled from the spec (StrokeBuilder, rejection case): "On rejection,
discard the weaker of the two per the extremity rule above", the rule above
being "keep whichever is more extreme (higher high for top, lower low for
bottom)".  Between a top and a bottom this reads: keep the top when its price
is the higher of the two, keep the bottom when its price is the lower. -/
def extremityKeep (p f : Fractal) : Fractal :=
  match p.type, f.type with
  | FType.bottom, FType.top => if f.price > p.price then f else p
  | FType.top, FType.bottom => if f.price < p.price then f else p
  | _, _ => f

/-- Modelled from the spec: the stroke-building step with the rejection
behaviour the specification describes (discard the weaker per the extremity
rule) instead of the source's unconditional `current_stroke_start =
current_fractal`.  Identical to `strokeStep` everywhere else. -/
def strokeStepSpec (st : Option Fractal × List Stroke) (f : Fractal) :
    Option Fractal × List Stroke :=
  match st.1 with
  | none => (some f, st.2)
  | some p =>
    if f.type ≠ p.type then
      if 2 ≤ f.idx - p.idx then
        if p.type = FType.bottom ∧ f.type = FType.top ∧ f.price > p.price then
          (some f, st.2 ++ [⟨StrokeType.up, p.price, f.price⟩])
        else if p.type = FType.top ∧ f.type = FType.bottom ∧ f.price < p.price then
          (some f, st.2 ++ [⟨StrokeType.down, p.price, f.price⟩])
        else (some (extremityKeep p f), st.2)
      else (some (extremityKeep p f), st.2)
    else
      if (f.type = FType.top ∧ f.price > p.price) ∨
          (f.type = FType.bottom ∧ f.price < p.price) then
        (some f, st.2)
      else st

/-- Modelled from the spec: `find_strokes` with the spec's rejection rule. -/
def find_strokes_spec (df : List Bar) : List Stroke × ℕ × ℕ :=
  if df.length < 5 then ([], 0, 0)
  else
    let fractals := fractalsOf df
    let ding_count := (fractals.filter fun f => f.type == FType.top).length
    let di_count := (fractals.filter fun f => f.type == FType.bottom).length
    if fractals.length < 2 then ([], ding_count, di_count)
    else
      ((fractals.foldl strokeStepSpec (none, [])).2, ding_count, di_count)

/-- Per-bar midpoints `(high+low)/2`, the `mid` column of
`calculate_zhongshu`. -/
def midpoints (df : List Bar) : List ℚ :=
  df.map fun b => (b.high + b.low) / 2

/-- Linear-interpolation step of the pandas `quantile` method on a sorted
list: with `i = ⌊h⌋`, return `s[i] + (h - i) * (s[i+1] - s[i])` when `i+1`
is in range and `s[i]` otherwise. -/
def interp (s : List ℚ) (h : ℚ) : ℚ :=
  if (Int.floor h).toNat + 1 < s.length then
    s.getD (Int.floor h).toNat 0 +
      (h - ((Int.floor h).toNat : ℚ)) *
        (s.getD ((Int.floor h).toNat + 1) 0 - s.getD (Int.floor h).toNat 0)
  else s.getD (Int.floor h).toNat 0

/-- The pandas `Series.quantile(q)` with the default linear interpolation:
sort the values and interpolate at position `h = q * (n - 1)`. -/
def quantile (q : ℚ) (xs : List ℚ) : ℚ :=
  if xs = [] then 0
  else interp (xs.insertionSort (· ≤ ·)) (q * ((xs.length : ℚ) - 1))

/-- The pivot band (`zhongshu`): `{low, high}`. -/
structure PivotBand where
  low : ℚ
  high : ℚ
  deriving Repr, DecidableEq, Inhabited

/-- Pivot-band estimation (`calculate_zhongshu`): 40th and 60th percentiles
of the per-bar midpoints of the DataFrame it is given. -/
def calculate_zhongshu (df : List Bar) : PivotBand :=
  { low := quantile (40 / 100) (midpoints df)
    high := quantile (60 / 100) (midpoints df) }

/-- Close of the last bar, `df.iloc[-1]['close']`.  Total with default `0`;
every caller in the source reaches it only with a non-empty DataFrame
(an empty one would raise and be converted to "no result"). -/
def lastClose (df : List Bar) : ℚ :=
  (df.getLastD default).close

/-- Window maximum of the highs, `df['high'].max()`. -/
def maxHigh : List Bar → ℚ
  | [] => 0
  | b :: bs => (bs.map Bar.high).foldl max b.high

/-- Window minimum of the lows, `df['low'].min()`. -/
def minLow : List Bar → ℚ
  | [] => 0
  | b :: bs => (bs.map Bar.low).foldl min b.low

/-- The last `n` rows, `df.tail(n)`. -/
def tail_n (n : ℕ) (l : List Bar) : List Bar :=
  l.drop (l.length - n)

inductive DivKind where
  | top
  | bottom
  deriving Repr, DecidableEq, Inhabited

/-- Result of `check_divergence`.  The source also carries
`divergence_strength` and `explanation` strings; no claim mentions them and
they are omitted.  `divergence_type` is `'底背驰'` (bottom) or `'顶背驰'`
(top) in the source. -/
structure DivResult where
  has_divergence : Bool
  divergence_type : Option DivKind
  deriving Repr, DecidableEq, Inhabited

/-- Divergence check (`check_divergence`).  The bottom block may set a
bottom divergence; the top block runs afterwards and can overwrite the same
`result` fields with a top divergence. -/
def check_divergence (df : List Bar) (strokes : List Stroke)
    (zhongshu : PivotBand) : DivResult :=
  if strokes.length < 2 then ⟨false, none⟩
  else
    let down_strokes := strokes.filter fun s => s.type == StrokeType.down
    let r0 : DivResult := ⟨false, none⟩
    let r1 : DivResult :=
      if 2 ≤ down_strokes.length then
        let last_down := down_strokes.getD (down_strokes.length - 1) default
        let prev_down := down_strokes.getD (down_strokes.length - 2) default
        if last_down.end_ < prev_down.end_ ∧
            |last_down.end_ - last_down.start| >
              |prev_down.end_ - prev_down.start| * (8 / 10) ∧
            lastClose df < zhongshu.low then
          ⟨true, some DivKind.bottom⟩
        else r0
      else r0
    let up_strokes := strokes.filter fun s => s.type == StrokeType.up
    if 2 ≤ up_strokes.length then
      let last_up := up_strokes.getD (up_strokes.length - 1) default
      let prev_up := up_strokes.getD (up_strokes.length - 2) default
      if last_up.end_ > prev_up.end_ ∧
          last_up.end_ - last_up.start <
            (prev_up.end_ - prev_up.start) * (12 / 10) ∧
          lastClose df > zhongshu.high then
        ⟨true, some DivKind.top⟩
      else r1
    else r1

inductive SellKind where
  | third
  | second
  deriving Repr, DecidableEq, Inhabited

/-- Result of `check_sell_signals` (`sell_type` is `'三卖'` (third) or
`'二卖'` (second) in the source; the `explanation` string is omitted). -/
structure SellResult where
  has_sell_signal : Bool
  sell_type : Option SellKind
  deriving Repr, DecidableEq, Inhabited

/-- Sell-signal check (`check_sell_signals`): requires at least three
strokes, takes `recent = strokes[-3:]`, tests the third-sell pattern on
`recent[0..2]`, then the second-sell pattern on `recent[0..1]`, the later
match overwriting the earlier result. -/
def check_sell_signals (df : List Bar) (strokes : List Stroke)
    (zhongshu : PivotBand) : SellResult :=
  if strokes.length < 3 then ⟨false, none⟩
  else
    let current_price := lastClose df
    let recent := strokes.drop (strokes.length - 3)
    let r0 := recent.getD 0 default
    let r1 := recent.getD 1 default
    let r2 := recent.getD 2 default
    let res1 : SellResult :=
      if r0.type = StrokeType.down ∧ r1.type = StrokeType.up ∧
          r2.type = StrokeType.down ∧ r1.end_ < zhongshu.low ∧
          current_price < r1.end_ then
        ⟨true, some SellKind.third⟩
      else ⟨false, none⟩
    if r0.type = StrokeType.up ∧ r1.type = StrokeType.down ∧
        r0.end_ > zhongshu.high ∧ r1.end_ < zhongshu.high ∧
        r1.end_ > zhongshu.low ∧ current_price < zhongshu.high then
      ⟨true, some SellKind.second⟩
    else res1

/-- Signal labels of `analyze_stock` (`无`, `三卖`, `二卖`, `三买`,
`三买+背驰`, `一买`, `一买+背驰`). -/
inductive Signal where
  | noSignal
  | thirdSell
  | secondSell
  | breakout
  | breakoutDiv
  | base
  | baseDiv
  deriving Repr, DecidableEq, Inhabited

/-- Action labels of `analyze_stock` (`观望`, `卖出`, `买入`, `减仓`, `关注`). -/
inductive TradeAction where
  | watch
  | sell
  | buy
  | reduce
  | attention
  deriving Repr, DecidableEq, Inhabited

/-- Map the sell result's `sell_type` to the signal label the sell branch
assigns (`signal = sell_signal['sell_type']`).  The `none` case is
unreachable when `has_sell_signal` is set. -/
def sellSignalToSignal : Option SellKind → Signal
  | some SellKind.third => Signal.thirdSell
  | some SellKind.second => Signal.secondSell
  | none => Signal.noSignal

/-- The per-instrument analysis record assembled at the end of
`analyze_stock`.  The percentage, risk-tier and free-text fields of the
source record are omitted: no claim mentions them. -/
structure AnalysisResult where
  price : ℚ
  max_price : ℚ
  min_price : ℚ
  ding_count : ℕ
  di_count : ℕ
  stroke_count : ℕ
  zhongshu_low : ℚ
  zhongshu_high : ℚ
  signal : Signal
  action : TradeAction
  entry_price : Option ℚ
  stop_loss : Option ℚ
  target_price : Option ℚ
  deriving Repr, DecidableEq, Inhabited

/-- The signal-decision chain of `analyze_stock` (the `if`/`elif` cascade
after the indicators are computed): returns
(signal, action, entry, stop, target). -/
def decide_signal (current_price max_price min_price : ℚ)
    (strokes : List Stroke) (zhongshu : PivotBand) (divergence : DivResult)
    (sell_signal : SellResult) :
    Signal × TradeAction × Option ℚ × Option ℚ × Option ℚ :=
  if sell_signal.has_sell_signal then
    let stop_loss :=
      match (strokes.filter fun s => s.type == StrokeType.up).getLast? with
      | some s => s.end_ * (102 / 100)
      | none => current_price * (105 / 100)
    (sellSignalToSignal sell_signal.sell_type, TradeAction.sell,
      some current_price, some stop_loss, some (min_price * (95 / 100)))
  else if current_price > zhongshu.high ∧ strokes ≠ [] then
    match (strokes.filter fun s => s.type == StrokeType.up).getLast? with
    | some su =>
      if su.end_ > zhongshu.high then
        let stop_loss := max (zhongshu.high * (98 / 100)) (current_price * (95 / 100))
        if divergence.has_divergence = true ∧
            divergence.divergence_type = some DivKind.top then
          (Signal.breakoutDiv, TradeAction.reduce, some current_price,
            some stop_loss, some max_price)
        else
          (Signal.breakout, TradeAction.buy, some current_price,
            some stop_loss, some max_price)
      else (Signal.noSignal, TradeAction.watch, none, none, none)
    | none => (Signal.noSignal, TradeAction.watch, none, none, none)
  else if current_price < zhongshu.low ∧ strokes ≠ [] then
    match (strokes.filter fun s => s.type == StrokeType.down).getLast? with
    | some sd =>
      let recent_low := sd.end_
      let rebound_pct := (current_price - recent_low) / recent_low * 100
      if rebound_pct > 1 ∨
          (divergence.has_divergence = true ∧
            divergence.divergence_type = some DivKind.bottom) then
        if divergence.has_divergence = true ∧
            divergence.divergence_type = some DivKind.bottom then
          (Signal.baseDiv, TradeAction.buy, some current_price,
            some (recent_low * (97 / 100)), some zhongshu.low)
        else
          (Signal.base, TradeAction.attention, some current_price,
            some (recent_low * (97 / 100)), some zhongshu.low)
      else (Signal.noSignal, TradeAction.watch, none, none, none)
    | none => (Signal.noSignal, TradeAction.watch, none, none, none)
  else (Signal.noSignal, TradeAction.watch, none, none, none)

/-- The per-instrument core of `analyze_stock`, starting from the fetched,
date-sorted DataFrame: the `len < 20` guard, `df.tail(days)`, indicator
computation, and the signal-decision cascade.  The `df.length = 0` guard
models the source's `try`/`except` returning `None` when the window is
empty and `df.iloc[-1]` would raise. -/
def analyze_core (days : ℕ) (df0 : List Bar) : Option AnalysisResult :=
  if df0.length < 20 then none
  else
    let df := tail_n days df0
    if df.length = 0 then none
    else
      let current_price := lastClose df
      let max_price := maxHigh df
      let min_price := minLow df
      let fs := find_strokes (handle_inclusion df)
      let strokes := fs.1
      let zhongshu := calculate_zhongshu df
      let divergence := check_divergence df strokes zhongshu
      let sell_signal := check_sell_signals df strokes zhongshu
      let dec := decide_signal current_price max_price min_price strokes
        zhongshu divergence sell_signal
      some
        { price := current_price
          max_price := max_price
          min_price := min_price
          ding_count := fs.2.1
          di_count := fs.2.2
          stroke_count := strokes.length
          zhongshu_low := zhongshu.low
          zhongshu_high := zhongshu.high
          signal := dec.1
          action := dec.2.1
          entry_price := dec.2.2.1
          stop_loss := dec.2.2.2.1
          target_price := dec.2.2.2.2 }

/-- `analyze_stock` at the per-instrument boundary: the fetched data may be
missing (`df is None`), in which case the result is `None`; exceptions
anywhere in the body are caught and also produce `None` (modelled by the
totality of `analyze_core`). -/
def analyze_stock (days : ℕ) (input : Option (List Bar)) :
    Option AnalysisResult :=
  match input with
  | none => none
  | some df0 => analyze_core days df0

/-- Width-one synthetic bar around a midpoint, used for concrete test
windows: open and close at the midpoint, high/low one unit away. -/
def midBar (m : ℚ) : Bar :=
  { open_ := m, high := m + 1, low := m - 1, close := m }

/-- Concrete input for the stroke-rejection behaviour: its fractal
candidates are a bottom at price 5 (index 2), a top at price 4 (index 7,
rejected: 4 ≯ 5) and a bottom at price 6/5 (index 9). -/
def exC1 : List Bar :=
  [⟨0, 10, 8, 0⟩, ⟨0, 17/2, 13/2, 0⟩, ⟨0, 7, 5, 0⟩, ⟨0, 15/2, 11/2, 0⟩,
   ⟨0, 9, 1/2, 0⟩, ⟨0, 7/2, 3/10, 0⟩, ⟨0, 19/5, 1/10, 0⟩, ⟨0, 4, 2, 0⟩,
   ⟨0, 37/10, 3/2, 0⟩, ⟨0, 18/5, 6/5, 0⟩, ⟨0, 73/20, 7/5, 0⟩]

/-- Concrete window where the pivot band over raw bars differs from the
pivot band over the merged bars (the last two bars merge into one). -/
def exC2 : List Bar :=
  [⟨0, 31, 30, 0⟩, ⟨0, 33, 32, 0⟩, ⟨0, 35, 34, 0⟩, ⟨0, 37, 36, 0⟩,
   ⟨0, 39, 38, 0⟩, ⟨0, 41, 40, 0⟩, ⟨0, 43, 42, 0⟩, ⟨0, 45, 44, 0⟩,
   ⟨0, 47, 46, 0⟩, ⟨0, 49, 48, 0⟩, ⟨0, 51, 50, 0⟩, ⟨0, 53, 52, 0⟩,
   ⟨0, 55, 54, 0⟩, ⟨0, 57, 56, 0⟩, ⟨0, 59, 58, 0⟩, ⟨0, 61, 60, 0⟩,
   ⟨0, 63, 62, 0⟩, ⟨0, 10, 5, 0⟩, ⟨0, 9, 4, 0⟩, ⟨0, 100, 0, 0⟩]

/-- Concrete inputs for the second-sell claim: exactly two strokes,
up then down, satisfying every price condition of the claim. -/
def dfC3 : List Bar := [⟨0, 5, 5, 5⟩]

def strokesC3 : List Stroke :=
  [⟨StrokeType.up, 1, 10⟩, ⟨StrokeType.down, 10, 6⟩]

def zsC3 : PivotBand := ⟨4, 8⟩

/-- Three bars on which `handle_inclusion` is not idempotent: the first run
merges the last two bars into `(low 0, high 100)`, which then contains the
already-emitted first bar, so the second run merges again. -/
def exC4 : List Bar := [⟨0, 10, 5, 0⟩, ⟨0, 9, 4, 0⟩, ⟨0, 100, 0, 0⟩]

/-- Two bars with no inclusion relation, for the amended idempotence claim. -/
def exC4w : List Bar := [⟨0, 10, 5, 0⟩, ⟨0, 9, 4, 0⟩]

/-- Concrete divergence input at the 0.8 boundary: the latest drop is
exactly 0.8 times the prior drop, with a new low and the close below the
band. -/
def dfC5 : List Bar := [⟨0, 0, 0, 0⟩]

def strokesC5 : List Stroke :=
  [⟨StrokeType.down, 10, 2⟩, ⟨StrokeType.down, 8, 8/5⟩]

def zsC5 : PivotBand := ⟨1, 2⟩

/-- Strict-inequality variant of the divergence input, for the amended
claim: the latest drop is 7, more than 0.8 times the prior drop of 8. -/
def strokesC5w : List Stroke :=
  [⟨StrokeType.down, 10, 2⟩, ⟨StrokeType.down, 8, 1⟩]

/-- A 19-bar window, one short of the 20-bar minimum. -/
def exC6 : List Bar := List.replicate 19 ⟨0, 2, 1, 1⟩

/-- A 59-bar window whose analysis fires the third-sell signal: a rise to
100, a fall to 50, a rebound to 60 that stays below the pivot band, and a
final fall to 40 with the close at 44. -/
def exC7 : List Bar :=
  ((List.range 20).map fun i => midBar (81 + i)) ++
    ((List.range 25).map fun i => midBar (98 - 2 * i)) ++
    [midBar 56, midBar 58, midBar 60] ++
    ((List.range 10).map fun i => midBar (58 - 2 * i)) ++
    [midBar 44]

/-- A one-bar window for the pivot-band witness. -/
def exC8 : List Bar := [⟨0, 2, 1, 1⟩]

/-- A six-bar window producing exactly one (down) stroke. -/
def exC10 : List Bar :=
  [midBar 5, midBar 9, midBar 8, midBar 3, midBar 4, midBar 6]

/-- A divergence result "indicates top divergence" when it is present with
kind top. -/
def indicates_top (r : DivResult) : Bool :=
  r.has_divergence && (r.divergence_type == some DivKind.top)

/-- A divergence result "indicates bottom divergence" when it is present
with kind bottom. -/
def indicates_bottom (r : DivResult) : Bool :=
  r.has_divergence && (r.divergence_type == some DivKind.bottom)

/-- The analysis record produced on the third-sell window `exC7`. -/
def rC7 : AnalysisResult := (analyze_core 90 exC7).getD default

lemma handle_inclusion_go_of_chain (cur : Bar) (l : List Bar)
    (h : List.Chain (fun a b => included a b = false) cur l) :
    handle_inclusion_go cur l = cur :: l := by
  induction l generalizing cur with
  | nil => rfl
  | cons b bs ih =>
    cases h with
    | cons hb hl => simp [handle_inclusion_go, hb, ih b hl]

/-- C4 counterexample: `handle_inclusion` is not idempotent; on `exC4` the
first pass merges the last two bars into a bar that contains the
already-emitted first bar, so a second pass merges again. -/
theorem c4_counterexample :
    handle_inclusion (handle_inclusion exC4) ≠ handle_inclusion exC4 := by
  decide

/-- C4 (amended): `handle_inclusion` leaves unchanged every bar sequence in
which no two adjacent bars are in an inclusion relation; its own output
need not have that property, so re-running it may change the output. -/
theorem c4_amended (l : List Bar)
    (h : List.Chain' (fun a b => included a b = false) l) :
    handle_inclusion l = l := by
  cases l with
  | nil => rfl
  | cons b bs => exact handle_inclusion_go_of_chain b bs h

theorem c4_witness :
    List.Chain' (fun a b => included a b = false) exC4w ∧
      handle_inclusion exC4w = exC4w :=
  ⟨List.Chain'.cons (by decide) (List.chain'_singleton _),
    c4_amended exC4w (List.Chain'.cons (by decide) (List.chain'_singleton _))⟩

/-- C6: a missing DataFrame or one with fewer than 20 bars yields no result
for that instrument; the embedding of `analyze_stock` is total, modelling
the source's `try`/`except` boundary that converts any exception to `None`. -/
theorem c6_insufficient_data (days : ℕ) (input : Option (List Bar))
    (h : input = none ∨ ∃ df0, input = some df0 ∧ df0.length < 20) :
    analyze_stock days input = none := by
  rcases h with h | ⟨df0, rfl, hlen⟩
  · simp [h, analyze_stock]
  · simp [analyze_stock, analyze_core, hlen]

theorem c6_witness :
    exC6.length < 20 ∧ analyze_stock 90 (some exC6) = none :=
  ⟨by decide, c6_insufficient_data 90 (some exC6) (Or.inr ⟨exC6, rfl, by decide⟩)⟩

/-- C9: a single `check_divergence` call never indicates both top and
bottom divergence: the result carries one `divergence_type`, and the top
block, when it fires, overwrites the bottom block's result. -/
theorem c9_single_kind (df : List Bar) (strokes : List Stroke)
    (zs : PivotBand) :
    (indicates_top (check_divergence df strokes zs) &&
      indicates_bottom (check_divergence df strokes zs)) = false := by
  rcases hr : check_divergence df strokes zs with ⟨hd, dt⟩
  cases dt with
  | none => simp [indicates_top, indicates_bottom]
  | some k => cases k <;> simp [indicates_top, indicates_bottom]

lemma getD_sorted_mono {s : List ℚ} (hs : List.Sorted (· ≤ ·) s) {i j : ℕ}
    (hij : i ≤ j) (hj : j < s.length) : s.getD i 0 ≤ s.getD j 0 := by
  have hi : i < s.length := lt_of_le_of_lt hij hj
  rw [List.getD_eq_getElem _ _ hi, List.getD_eq_getElem _ _ hj]
  rcases eq_or_lt_of_le hij with rfl | hlt
  · exact le_refl _
  · exact List.pairwise_iff_getElem.mp hs i j hi hj hlt

lemma interp_mono {s : List ℚ} (hs : List.Sorted (· ≤ ·) s)
    {h1 h2 : ℚ} (h10 : 0 ≤ h1) (h12 : h1 ≤ h2)
    (h2n : h2 ≤ (s.length : ℚ) - 1) :
    interp s h1 ≤ interp s h2 := by
  have h20 : 0 ≤ h2 := le_trans h10 h12
  have hf1 : (0 : ℤ) ≤ Int.floor h1 := Int.floor_nonneg.mpr h10
  have hf2 : (0 : ℤ) ≤ Int.floor h2 := Int.floor_nonneg.mpr h20
  have hc1 : (((Int.floor h1).toNat : ℚ)) = ((Int.floor h1 : ℤ) : ℚ) := by
    exact_mod_cast congrArg (fun z : ℤ => (z : ℚ)) (Int.toNat_of_nonneg hf1)
  have hc2 : (((Int.floor h2).toNat : ℚ)) = ((Int.floor h2 : ℤ) : ℚ) := by
    exact_mod_cast congrArg (fun z : ℤ => (z : ℚ)) (Int.toNat_of_nonneg hf2)
  have hle1 : (((Int.floor h1).toNat : ℚ)) ≤ h1 := by
    rw [hc1]; exact Int.floor_le h1
  have hle2 : (((Int.floor h2).toNat : ℚ)) ≤ h2 := by
    rw [hc2]; exact Int.floor_le h2
  have hlt1 : h1 < ((Int.floor h1).toNat : ℚ) + 1 := by
    rw [hc1]; exact_mod_cast Int.lt_floor_add_one h1
  have hi12 : (Int.floor h1).toNat ≤ (Int.floor h2).toNat :=
    Int.toNat_le_toNat (Int.floor_mono h12)
  have hi2n : (Int.floor h2).toNat < s.length := by
    have hq : (((Int.floor h2).toNat : ℚ)) + 1 ≤ (s.length : ℚ) := by linarith
    exact_mod_cast hq
  unfold interp
  split_ifs with ha hb hb
  · -- both interpolation branches
    rcases eq_or_lt_of_le hi12 with heq | hlt
    · rw [heq]
      have hd : s.getD (Int.floor h2).toNat 0 ≤
          s.getD ((Int.floor h2).toNat + 1) 0 :=
        getD_sorted_mono hs (Nat.le_succ _) hb
      have hg : h1 - ((Int.floor h1).toNat : ℚ) ≤
          h2 - ((Int.floor h2).toNat : ℚ) := by rw [heq]; linarith
      nlinarith [hg, hd, sub_nonneg.mpr hd]
    · have hsucc : (Int.floor h1).toNat + 1 ≤ (Int.floor h2).toNat := hlt
      have hd1 : s.getD (Int.floor h1).toNat 0 ≤
          s.getD ((Int.floor h1).toNat + 1) 0 :=
        getD_sorted_mono hs (Nat.le_succ _) ha
      have hm1 : s.getD ((Int.floor h1).toNat + 1) 0 ≤
          s.getD (Int.floor h2).toNat 0 :=
        getD_sorted_mono hs hsucc hi2n
      have hd2 : s.getD (Int.floor h2).toNat 0 ≤
          s.getD ((Int.floor h2).toNat + 1) 0 :=
        getD_sorted_mono hs (Nat.le_succ _) hb
      have hg1 : h1 - ((Int.floor h1).toNat : ℚ) < 1 := by linarith
      have hg2 : 0 ≤ h2 - ((Int.floor h2).toNat : ℚ) := by linarith
      nlinarith [hd1, hm1, hd2, hg1, hg2, sub_nonneg.mpr hd1, sub_nonneg.mpr hd2]
  · -- first interpolates, second is at the last index
    rcases eq_or_lt_of_le hi12 with heq | hlt
    · exact absurd (heq ▸ ha) hb
    · have hsucc : (Int.floor h1).toNat + 1 ≤ (Int.floor h2).toNat := hlt
      have hd1 : s.getD (Int.floor h1).toNat 0 ≤
          s.getD ((Int.floor h1).toNat + 1) 0 :=
        getD_sorted_mono hs (Nat.le_succ _) ha
      have hm1 : s.getD ((Int.floor h1).toNat + 1) 0 ≤
          s.getD (Int.floor h2).toNat 0 :=
        getD_sorted_mono hs hsucc hi2n
      have hg1 : h1 - ((Int.floor h1).toNat : ℚ) < 1 := by linarith
      nlinarith [hd1, hm1, hg1, sub_nonneg.mpr hd1]
  · -- first at the last index, second interpolates: impossible
    exact absurd (Nat.lt_of_le_of_lt (Nat.succ_le_succ hi12) hb) ha
  · exact getD_sorted_mono hs hi12 hi2n

/-- C8: the pivot band computed by `calculate_zhongshu` always satisfies
`low ≤ high` on a non-empty window, because the linearly interpolated
quantile is monotone in the quantile level over the sorted midpoints. -/
theorem c8_pivot_band_le (df : List Bar) (h : df ≠ []) :
    (calculate_zhongshu df).low ≤ (calculate_zhongshu df).high := by
  have hm : midpoints df ≠ [] := by
    simpa [midpoints] using h
  have hn : 1 ≤ (midpoints df).length := List.length_pos.mpr hm
  have hnq : (1 : ℚ) ≤ ((midpoints df).length : ℚ) := by exact_mod_cast hn
  have hsorted : List.Sorted (· ≤ ·) ((midpoints df).insertionSort (· ≤ ·)) :=
    List.sorted_insertionSort _ _
  have hlen : ((midpoints df).insertionSort (· ≤ ·)).length =
      (midpoints df).length := List.length_insertionSort _ _
  have hsne : (midpoints df).insertionSort (· ≤ ·) ≠ [] := by
    intro hcon
    rw [← List.length_eq_zero, hlen] at hcon
    omega
  unfold calculate_zhongshu quantile
  simp only [if_neg hm]
  apply interp_mono hsorted
  · have : (0 : ℚ) ≤ ((midpoints df).length : ℚ) - 1 := by linarith
    positivity
  · have : (0 : ℚ) ≤ ((midpoints df).length : ℚ) - 1 := by linarith
    nlinarith
  · rw [hlen]
    nlinarith

theorem c8_witness :
    exC8 ≠ [] ∧ (calculate_zhongshu exC8).low ≤ (calculate_zhongshu exC8).high :=
  ⟨by decide, c8_pivot_band_le exC8 (by decide)⟩

/-- C3 counterexample: with exactly two strokes, up then down, the
up-stroke's end above the band top, the down-stroke's end strictly inside
the band and the close below the band top, `check_sell_signals` still
reports no signal (the source requires at least three strokes). -/
theorem c3_counterexample :
    strokesC3.length = 2 ∧
    (strokesC3.getD 0 default).type = StrokeType.up ∧
    (strokesC3.getD 1 default).type = StrokeType.down ∧
    (strokesC3.getD 0 default).end_ > zsC3.high ∧
    zsC3.low < (strokesC3.getD 1 default).end_ ∧
    (strokesC3.getD 1 default).end_ < zsC3.high ∧
    lastClose dfC3 < zsC3.high ∧
    check_sell_signals dfC3 strokesC3 zsC3 = ⟨false, none⟩ := by
  decide

/-- C3 (amended): the second-sell signal requires at least three strokes
and examines the first two of the last three (`strokes[-3]` and
`strokes[-2]`), not the last two: it fires exactly when `strokes[-3]` is
up, `strokes[-2]` is down, the up-stroke's end exceeds `PivotBand.high`,
the down-stroke's end lies strictly inside the band, and the current close
is below `PivotBand.high`. -/
theorem c3_amended (df : List Bar) (strokes : List Stroke) (zs : PivotBand) :
    (check_sell_signals df strokes zs).sell_type = some SellKind.second ↔
      (3 ≤ strokes.length ∧
        ((strokes.drop (strokes.length - 3)).getD 0 default).type = StrokeType.up ∧
        ((strokes.drop (strokes.length - 3)).getD 1 default).type = StrokeType.down ∧
        ((strokes.drop (strokes.length - 3)).getD 0 default).end_ > zs.high ∧
        ((strokes.drop (strokes.length - 3)).getD 1 default).end_ < zs.high ∧
        ((strokes.drop (strokes.length - 3)).getD 1 default).end_ > zs.low ∧
        lastClose df < zs.high) := by
  simp only [check_sell_signals]
  split_ifs with h1 h2 h3
  · simp only [Option.some.injEq, iff_iff_implies_and_implies]
    constructor
    · intro hcon
      exact absurd hcon (by simp)
    · rintro ⟨h3le, -⟩
      omega
  · simp only [Option.some.injEq, true_iff, iff_true]
    exact ⟨by omega, h2⟩
  · constructor
    · intro hcon
      exact absurd hcon (by simp)
    · rintro ⟨-, hrest⟩
      exact absurd hrest h2
  · constructor
    · intro hcon
      exact absurd hcon (by simp)
    · rintro ⟨-, hrest⟩
      exact absurd hrest h2

/-- C5 counterexample: at the 0.8 boundary (latest drop exactly 0.8 times
the prior drop), with a new low and the close below the band, the source's
strict comparison `current_price_drop > prev_price_drop * 0.8` fails and no
bottom divergence is reported, contradicting the claim's `≥`. -/
theorem c5_counterexample :
    (strokesC5.filter fun s => s.type == StrokeType.down) = strokesC5 ∧
    (strokesC5.getD 1 default).end_ < (strokesC5.getD 0 default).end_ ∧
    |(strokesC5.getD 1 default).end_ - (strokesC5.getD 1 default).start| =
      |(strokesC5.getD 0 default).end_ - (strokesC5.getD 0 default).start| * (8 / 10) ∧
    lastClose dfC5 < zsC5.low ∧
    check_divergence dfC5 strokesC5 zsC5 = ⟨false, none⟩ := by
  decide

/-- C5 (amended): with a well-formed pivot band (`low ≤ high`),
`check_divergence` reports bottom divergence whenever the latest down-stroke
makes a new low, the latest drop magnitude is strictly greater than 0.8
times the prior drop magnitude, and the current close is below
`PivotBand.low` (the top-divergence block cannot overwrite it, since the
close cannot also exceed `PivotBand.high`). -/
theorem c5_amended (df : List Bar) (strokes : List Stroke) (zs : PivotBand)
    (hzs : zs.low ≤ zs.high)
    (hlen : 2 ≤ (strokes.filter fun s => s.type == StrokeType.down).length)
    (hnewlow :
      ((strokes.filter fun s => s.type == StrokeType.down).getD
          ((strokes.filter fun s => s.type == StrokeType.down).length - 1) default).end_ <
        ((strokes.filter fun s => s.type == StrokeType.down).getD
          ((strokes.filter fun s => s.type == StrokeType.down).length - 2) default).end_)
    (hdrop :
      |((strokes.filter fun s => s.type == StrokeType.down).getD
          ((strokes.filter fun s => s.type == StrokeType.down).length - 1) default).end_ -
        ((strokes.filter fun s => s.type == StrokeType.down).getD
          ((strokes.filter fun s => s.type == StrokeType.down).length - 1) default).start| >
      |((strokes.filter fun s => s.type == StrokeType.down).getD
          ((strokes.filter fun s => s.type == StrokeType.down).length - 2) default).end_ -
        ((strokes.filter fun s => s.type == StrokeType.down).getD
          ((strokes.filter fun s => s.type == StrokeType.down).length - 2) default).start| * (8 / 10))
    (hclose : lastClose df < zs.low) :
    check_divergence df strokes zs = ⟨true, some DivKind.bottom⟩ := by
  have hsl : ¬strokes.length < 2 := by
    have := List.length_filter_le (fun s => s.type == StrokeType.down) strokes
    omega
  simp only [check_divergence, if_neg hsl, if_pos hlen,
    if_pos (show _ ∧ _ ∧ _ from ⟨hnewlow, hdrop, hclose⟩)]
  split_ifs with hu ht
  · exfalso
    have hcl := ht.2.2
    linarith
  · rfl
  · rfl

theorem c5_witness :
    zsC5.low ≤ zsC5.high ∧
    2 ≤ (strokesC5w.filter fun s => s.type == StrokeType.down).length ∧
    check_divergence dfC5 strokesC5w zsC5 = ⟨true, some DivKind.bottom⟩ :=
  ⟨by decide, by decide,
    c5_amended dfC5 strokesC5w zsC5 (by decide) (by decide) (by decide)
      (by decide) (by decide)⟩

/-- C1 counterexample: on `exC1` the pending bottom (price 5) meets a top
candidate at price 4, which is rejected (4 ≯ 5).  The source discards the
pending fractal and keeps the rejected candidate, which then emits a down
stroke 4 → 6/5; the spec's extremity rule would keep the bottom at 5 and
emit nothing. -/
theorem c1_counterexample :
    fractalsOf exC1 =
      [⟨2, FType.bottom, 5⟩, ⟨7, FType.top, 4⟩, ⟨9, FType.bottom, 6/5⟩] ∧
    (find_strokes exC1).1 = [⟨StrokeType.down, 4, 6/5⟩] ∧
    (find_strokes_spec exC1).1 = [] := by
  decide

/-- C1 (amended): when an opposite-kind candidate is rejected as a stroke
endpoint, the pending fractal is always discarded and the candidate becomes
the new pending, regardless of which of the two is more extreme; scanning
continues without emitting a stroke. -/
theorem c1_amended (p f : Fractal) (ss : List Stroke)
    (hne : f.type ≠ p.type)
    (hrej : ¬(2 ≤ f.idx - p.idx ∧
      ((p.type = FType.bottom ∧ f.type = FType.top ∧ f.price > p.price) ∨
       (p.type = FType.top ∧ f.type = FType.bottom ∧ f.price < p.price)))) :
    strokeStep (some p, ss) f = (some f, ss) := by
  simp only [strokeStep]
  rw [if_pos hne]
  by_cases hsep : 2 ≤ f.idx - p.idx
  · rw [if_pos hsep, if_neg (fun hup => hrej ⟨hsep, Or.inl hup⟩),
      if_neg (fun hdn => hrej ⟨hsep, Or.inr hdn⟩)]
  · rw [if_neg hsep]

theorem c1_witness :
    (⟨7, FType.top, 4⟩ : Fractal).type ≠ (⟨2, FType.bottom, 5⟩ : Fractal).type ∧
    (⟨7, FType.top, 4⟩ : Fractal).price < (⟨2, FType.bottom, 5⟩ : Fractal).price ∧
    strokeStep (some ⟨2, FType.bottom, 5⟩, []) ⟨7, FType.top, 4⟩ =
      (some ⟨7, FType.top, 4⟩, []) :=
  ⟨by decide, by decide,
    c1_amended ⟨2, FType.bottom, 5⟩ ⟨7, FType.top, 4⟩ [] (by decide) (by decide)⟩

lemma strokeStep_mem (st : Option Fractal × List Stroke) (f : Fractal)
    (s : Stroke) (hs : s ∈ (strokeStep st f).2) :
    s ∈ st.2 ∨ (s.type = StrokeType.up ∧ s.start < s.end_) ∨
      (s.type = StrokeType.down ∧ s.end_ < s.start) := by
  rcases st with ⟨op, ss⟩
  cases op with
  | none => exact Or.inl hs
  | some p =>
    simp only [strokeStep] at hs
    split_ifs at hs with h1 h2 h3 h4 h5
    · rcases List.mem_append.mp hs with h | h
      · exact Or.inl h
      · rw [List.mem_singleton] at h
        subst h
        exact Or.inr (Or.inl ⟨rfl, h3.2.2⟩)
    · rcases List.mem_append.mp hs with h | h
      · exact Or.inl h
      · rw [List.mem_singleton] at h
        subst h
        exact Or.inr (Or.inr ⟨rfl, h4.2.2⟩)
    · exact Or.inl hs
    · exact Or.inl hs
    · exact Or.inl hs
    · exact Or.inl hs

lemma foldl_strokeStep_directional (fr : List Fractal)
    (init : Option Fractal × List Stroke)
    (hinit : ∀ s ∈ init.2, (s.type = StrokeType.up → s.start < s.end_) ∧
      (s.type = StrokeType.down → s.end_ < s.start)) :
    ∀ s ∈ (fr.foldl strokeStep init).2,
      (s.type = StrokeType.up → s.start < s.end_) ∧
      (s.type = StrokeType.down → s.end_ < s.start) := by
  induction fr generalizing init with
  | nil => exact hinit
  | cons f fs ih =>
    intro s hs
    refine ih (strokeStep init f) ?_ s hs
    intro t ht
    rcases strokeStep_mem init f t ht with h | h | h
    · exact hinit t h
    · refine ⟨fun _ => h.2, fun hd => ?_⟩
      rw [h.1] at hd
      exact StrokeType.noConfusion hd
    · refine ⟨fun hu => ?_, fun _ => h.2⟩
      rw [h.1] at hu
      exact StrokeType.noConfusion hu

/-- C10: every stroke emitted by `find_strokes` is strictly directional: an
up stroke ends strictly above its start, a down stroke strictly below. -/
theorem c10_strokes_directional (df : List Bar) (s : Stroke)
    (hs : s ∈ (find_strokes df).1) :
    (s.type = StrokeType.up → s.start < s.end_) ∧
    (s.type = StrokeType.down → s.end_ < s.start) := by
  simp only [find_strokes] at hs
  split_ifs at hs with h1 h2
  · simp at hs
  · simp at hs
  · exact foldl_strokeStep_directional (fractalsOf df) (none, [])
      (by intro t ht; simp at ht) s hs

theorem c10_witness :
    (⟨StrokeType.down, 10, 2⟩ : Stroke) ∈ (find_strokes exC10).1 ∧ (2 : ℚ) < 10 :=
  ⟨by decide,
    (c10_strokes_directional exC10 ⟨StrokeType.down, 10, 2⟩ (by decide)).2 rfl⟩

/-- C2 counterexample: the analysis pipeline's pivot band is computed from
the raw bar window, not the merged bars; on `exC2` the 40th percentile of
the raw midpoints (417/10) differs from that of the merged-bar midpoints
(429/10). -/
theorem c2_counterexample :
    (analyze_core 90 exC2).isSome = true ∧
    ((analyze_core 90 exC2).getD default).zhongshu_low ≠
      quantile (40 / 100) (midpoints (handle_inclusion (tail_n 90 exC2))) := by
  decide

/-- C2 (amended): for every analysis call that yields a result, the pivot
band equals the 40th and 60th percentiles of the midpoints of the raw bar
window (`df.tail(days)`), before any bar merging. -/
theorem c2_amended (days : ℕ) (df0 : List Bar) (r : AnalysisResult)
    (h : analyze_core days df0 = some r) :
    r.zhongshu_low = quantile (40 / 100) (midpoints (tail_n days df0)) ∧
    r.zhongshu_high = quantile (60 / 100) (midpoints (tail_n days df0)) := by
  simp only [analyze_core] at h
  split_ifs at h with h1 h2
  rw [Option.some.injEq] at h
  subst h
  exact ⟨rfl, rfl⟩

set_option maxRecDepth 40000 in
theorem c2_witness :
    analyze_core 90 exC2 = some ((analyze_core 90 exC2).getD default) ∧
    ((analyze_core 90 exC2).getD default).zhongshu_low =
      quantile (40 / 100) (midpoints (tail_n 90 exC2)) ∧
    ((analyze_core 90 exC2).getD default).zhongshu_high =
      quantile (60 / 100) (midpoints (tail_n 90 exC2)) :=
  ⟨by decide, c2_amended 90 exC2 _ (by decide)⟩

lemma decide_signal_of_sell (cp mp mnp : ℚ) (strokes : List Stroke)
    (zs : PivotBand) (dv : DivResult) (ssig : SellResult)
    (h : ssig.has_sell_signal = true) :
    decide_signal cp mp mnp strokes zs dv ssig =
      (sellSignalToSignal ssig.sell_type, TradeAction.sell, some cp,
        some (match (strokes.filter fun s => s.type == StrokeType.up).getLast? with
          | some s => s.end_ * (102 / 100)
          | none => cp * (105 / 100)),
        some (mnp * (95 / 100))) := by
  simp only [decide_signal, h, if_true]

lemma decide_signal_fst_of_not_sell (cp mp mnp : ℚ) (strokes : List Stroke)
    (zs : PivotBand) (dv : DivResult) (ssig : SellResult)
    (h : ¬ssig.has_sell_signal = true) :
    (decide_signal cp mp mnp strokes zs dv ssig).1 ≠ Signal.thirdSell := by
  simp only [decide_signal, if_neg h]
  split_ifs <;>
    first
      | (split <;> first
          | (split_ifs <;> simp)
          | simp)
      | simp

lemma decide_signal_thirdSell (cp mp mnp : ℚ) (strokes : List Stroke)
    (zs : PivotBand) (dv : DivResult) (ssig : SellResult)
    (h : (decide_signal cp mp mnp strokes zs dv ssig).1 = Signal.thirdSell) :
    (decide_signal cp mp mnp strokes zs dv ssig).2.2.2.1 =
      some (match (strokes.filter fun s => s.type == StrokeType.up).getLast? with
        | some s => s.end_ * (102 / 100)
        | none => cp * (105 / 100)) ∧
    (decide_signal cp mp mnp strokes zs dv ssig).2.2.2.2 =
      some (mnp * (95 / 100)) := by
  by_cases hsell : ssig.has_sell_signal = true
  · rw [decide_signal_of_sell cp mp mnp strokes zs dv ssig hsell]
    exact ⟨rfl, rfl⟩
  · exact absurd h (decide_signal_fst_of_not_sell cp mp mnp strokes zs dv ssig hsell)

/-- C7: whenever the analysis result carries the third-sell signal, its
stop price is the latest up-stroke's end price times 1.02 (or the current
price times 1.05 when no up-stroke exists) and its target price is the
window-minimum low times 0.95. -/
theorem c7_third_sell_prices (days : ℕ) (df0 : List Bar) (r : AnalysisResult)
    (h : analyze_core days df0 = some r) (hsig : r.signal = Signal.thirdSell) :
    r.stop_loss =
      some (match ((find_strokes (handle_inclusion (tail_n days df0))).1.filter
          fun s => s.type == StrokeType.up).getLast? with
        | some s => s.end_ * (102 / 100)
        | none => lastClose (tail_n days df0) * (105 / 100)) ∧
    r.target_price = some (minLow (tail_n days df0) * (95 / 100)) := by
  simp only [analyze_core] at h
  split_ifs at h with h1 h2
  rw [Option.some.injEq] at h
  subst h
  exact decide_signal_thirdSell _ _ _ _ _ _ _ hsig

set_option maxRecDepth 100000 in
set_option maxHeartbeats 1600000 in
theorem c7_witness :
    analyze_core 90 exC7 = some rC7 ∧
    rC7.signal = Signal.thirdSell ∧
    (rC7.stop_loss =
      some (match ((find_strokes (handle_inclusion (tail_n 90 exC7))).1.filter
          fun s => s.type == StrokeType.up).getLast? with
        | some s => s.end_ * (102 / 100)
        | none => lastClose (tail_n 90 exC7) * (105 / 100)) ∧
     rC7.target_price = some (minLow (tail_n 90 exC7) * (95 / 100))) :=
  ⟨by decide, by decide,
    c7_third_sell_prices 90 exC7 rC7 (by decide) (by decide)⟩
